import Mathlib

/-!
Formal model of the `Sweep` class from `ta/sweep/sweep_parser.py`.

Python dictionaries are modelled as ordered association lists
(`List (String × _)`), preserving insertion order; numeric trace values are
modelled as rationals (every numeric literal in the reference behaviour is
exactly representable); exceptions are modelled with an explicit error type.
`change_unit` mutates the object in place and may raise afterwards, so its
model returns the post-call state together with an optional error.
-/

namespace Autosweep

/-- The Python exception kinds raised by the `Sweep` class. -/
inductive PyError where
  | typeError (msg : String)
  | valueError (msg : String)
  | keyError (msg : String)
  | indexError (msg : String)
  deriving DecidableEq, Repr

/-- Decidable equality for `Except`, so concrete runs can be checked by `decide`. -/
instance {ε α : Type} [DecidableEq ε] [DecidableEq α] : DecidableEq (Except ε α) := fun x y =>
  match x, y with
  | .ok a, .ok b => if h : a = b then .isTrue (by rw [h]) else .isFalse (by simp [h])
  | .error a, .error b => if h : a = b then .isTrue (by rw [h]) else .isFalse (by simp [h])
  | .ok _, .error _ => .isFalse (by simp)
  | .error _, .ok _ => .isFalse (by simp)

/-- The key view of a Python dict modelled as an association list. -/
def keys {α : Type} (l : List (String × α)) : List String := l.map Prod.fst

/-- Python `d1.keys() == d2.keys()`: dict key views compare as sets. -/
def sameKeys {α β : Type} (l₁ : List (String × α)) (l₂ : List (String × β)) : Bool :=
  (keys l₁).all (fun k => (keys l₂).contains k) && (keys l₂).all (fun k => (keys l₁).contains k)

/-- Python dict assignment `d[k] = v`: overwrite in place (keeping the key's
position) when the key exists, append otherwise. -/
def setAssoc {α : Type} (l : List (String × α)) (k : String) (v : α) : List (String × α) :=
  if (keys l).contains k then l.map (fun p => if p.1 = k then (k, v) else p)
  else l ++ [(k, v)]

/-- Model of `np.min`: `none` models the `ValueError` numpy raises on an
empty array. -/
def listMin : List ℚ → Option ℚ
  | [] => none
  | x :: xs => some (xs.foldl min x)

/-- Model of `np.max`: `none` models the `ValueError` numpy raises on an
empty array. -/
def listMax : List ℚ → Option ℚ
  | [] => none
  | x :: xs => some (xs.foldl max x)

/-- Truthiness of a Python `str | None` value: `None` and `""` are falsy. -/
def truthy : Option String → Bool
  | none => false
  | some s => !s.isEmpty

/-- The decimal digit characters used when rendering a number. -/
def digitChar : ℕ → Char
  | 0 => '0' | 1 => '1' | 2 => '2' | 3 => '3' | 4 => '4'
  | 5 => '5' | 6 => '6' | 7 => '7' | 8 => '8' | 9 => '9'
  | _ => '!'

/-- Decimal rendering of a positive natural, most significant digit first;
the first argument is recursion fuel (any value `≥ n` gives the digits of `n`). -/
def natStrAux : ℕ → ℕ → List Char
  | 0, _ => []
  | fuel + 1, n => if n = 0 then [] else natStrAux fuel (n / 10) ++ [digitChar (n % 10)]

/-- Decimal rendering of a natural number, as Python renders an index in an
f-string such as `f'y2'` for index 2. -/
def natStr (n : ℕ) : String := if n = 0 then "0" else ⟨natStrAux n n⟩

/-- Decimal rendering of a rational trace value inside an f-string (the
textual details of Python's float rendering are abstracted to the decimal
rendering of the rational; which characters appear never matters, only that
the text is built from the numeric value). -/
def ratStr (q : ℚ) : String :=
  (if q.num < 0 then "-" else "") ++ natStr q.num.natAbs ++
    (if q.den = 1 then "" else "/" ++ natStr q.den)

/-- The f-string of `get_axis_labels`: the first piece, a space, then the
second piece in parentheses. -/
def fmtLabel (a b : String) : String := a ++ " (" ++ b ++ ")"

/-- The `ValueError` message for a trace whose length differs from the x-trace. -/
def lengthMismatchMsg (k : String) : String :=
  "Trace '" ++ k ++ "' does not have the same length as the x-trace. Every trace must have the same length."

/-- The `ValueError` message of `change_unit` when `unit` is missing. -/
def missingUnitMsg : String := "The argument 'unit' must be defined for a Sweep with attrs"

/-- The `KeyError` message of `get_trace_col` for an unresolvable name. -/
def noTraceMsg (col : String) : String := "The trace '" ++ col ++ "' does not exist"

/-- The state of a `Sweep` object: `_traces`, `_attrs` (name ↦ (description,
unit)), `_aliases`, `_len`, `_ranges`. -/
structure Sweep where
  traces : List (String × List ℚ)
  attrs : List (String × String × String)
  aliases : List (String × String)
  len : ℕ
  ranges : List (String × ℚ × ℚ)
  deriving DecidableEq, Repr

/-- The constructor loop `for k, v in self._traces.items()`: records
`(np.min(v), np.max(v))` for each trace, then raises if the trace's length
differs from `self._len` (so an empty trace fails at `np.min` before any
length comparison is made). -/
def buildRanges (len : ℕ) : List (String × List ℚ) → Except PyError (List (String × ℚ × ℚ))
  | [] => .ok []
  | (k, v) :: rest =>
    match listMin v, listMax v with
    | some mn, some mx =>
      if v.length ≠ len then .error (.valueError (lengthMismatchMsg k))
      else
        match buildRanges len rest with
        | .ok rs => .ok ((k, (mn, mx)) :: rs)
        | .error e => .error e
    | _, _ =>
      .error (.valueError "zero-size array to reduction operation minimum which has no identity")

/-- The tail of `Sweep.__init__` after the `attrs` validation: builds
`_aliases` from the key tuple (`'x'` and `'y'`, then an `f'y0'`, `f'y1'`, …
entry for each non-x trace), takes `_len` from the x trace, and runs the
ranges-and-length loop. -/
def initCore (traces : List (String × List ℚ)) (attrs : List (String × String × String)) :
    Except PyError Sweep :=
  match keys traces with
  | k0 :: k1 :: _ =>
    let aliases := [("x", k0), ("y", k1)] ++
      ((keys traces).drop 1).enum.map (fun p => ("y" ++ natStr p.1, p.2))
    match List.lookup k0 traces with
    | some xv =>
      match buildRanges xv.length traces with
      | .ok rs => .ok ⟨traces, attrs, aliases, xv.length, rs⟩
      | .error e => .error e
    | none => .error (.keyError k0)
  | _ => .error (.indexError "tuple index out of range")

/-- Model of `Sweep.__init__(traces, attrs=None)`. The `isinstance(traces,
dict)` `TypeError` check is discharged by typing. `if attrs:` is Python
truthiness, so `None` and an empty dict both leave `self._attrs = {}`. -/
def Sweep.init (traces : List (String × List ℚ))
    (attrs : Option (List (String × String × String))) : Except PyError Sweep :=
  if traces.length < 2 then
    .error (.valueError "There must be more than 1 trace of data to make a sweep.")
  else
    match attrs with
    | some a =>
      if a.isEmpty then initCore traces []
      else if sameKeys a traces then initCore traces a
      else .error (.valueError "The keys of 'traces' and 'attrs' must match.")
    | none => initCore traces []

/-- Model of `Sweep.get_trace_col`: aliases are consulted first, then
canonical trace names; anything else raises a `KeyError` naming the key. -/
def Sweep.get_trace_col (s : Sweep) (col : String) : Except PyError String :=
  match List.lookup col s.aliases with
  | some t => .ok t
  | none =>
    if (keys s.traces).contains col then .ok col
    else .error (.keyError (noTraceMsg col))

/-- Model of `Sweep.__getitem__`: resolve the name, then read the trace. -/
def Sweep.getitem (s : Sweep) (item : String) : Except PyError (List ℚ) :=
  match s.get_trace_col item with
  | .ok c =>
    match List.lookup c s.traces with
    | some v => .ok v
    | none => .error (.keyError c)
  | .error e => .error e

/-- Model of `dict(map(reversed, aliases.items()))`: inverts the alias dict;
for duplicate inverted keys (the `'y'` and `'y0'` aliases share a target)
Python keeps the LAST pair, which first-match lookup on the reversed list
reproduces. -/
def invertAliases (aliases : List (String × String)) : List (String × String) :=
  (aliases.map (fun p => (p.2, p.1))).reverse

/-- The loop of `get_axis_labels`: iterates over `self._traces.items()`,
optionally replaces the key by its generic alias, and formats
`f"v0 (v1)"` where `v` is the TRACE ARRAY — so the label text is built
from the first two numeric samples, and indexing raises when a trace has
fewer than two points. -/
def axisLabelsLoop (inv : List (String × String)) (ugn : Bool) :
    List (String × List ℚ) → Except PyError (List (String × String))
  | [] => .ok []
  | (k, v) :: rest =>
    let key? : Except PyError String :=
      if ugn then
        match List.lookup k inv with
        | some a => .ok a
        | none => .error (.keyError k)
      else .ok k
    match key? with
    | .error e => .error e
    | .ok key =>
      match v with
      | a :: b :: _ =>
        match axisLabelsLoop inv ugn rest with
        | .ok ls => .ok ((key, fmtLabel (ratStr a) (ratStr b)) :: ls)
        | .error e => .error e
      | _ => .error (.indexError "index out of bounds")

/-- Model of `Sweep.get_axis_labels(use_generic_names=False)`. -/
def Sweep.get_axis_labels (s : Sweep) (ugn : Bool) : Except PyError (List (String × String)) :=
  axisLabelsLoop (invertAliases s.aliases) ugn s.traces

/-- Model of `Sweep.change_unit(col, coeff, unit=None, desc=None)`. The
in-place multiply happens FIRST; the missing-unit validation only runs
afterwards, so the returned state carries the rescaled trace even when an
error is raised. -/
def Sweep.change_unit (s : Sweep) (col : String) (coeff : ℚ)
    (unit desc : Option String) : Sweep × Option PyError :=
  match s.get_trace_col col with
  | .error e => (s, some e)
  | .ok c =>
    match List.lookup c s.traces with
    | none => (s, some (.keyError c))
    | some v =>
      let s₁ : Sweep := { s with traces := setAssoc s.traces c (v.map (fun x => coeff * x)) }
      if s₁.attrs.isEmpty then (s₁, none)
      else if !truthy unit then (s₁, some (.valueError missingUnitMsg))
      else
        let u := unit.getD ""
        if truthy desc then
          ({ s₁ with attrs := setAssoc s₁.attrs c (desc.getD "", u) }, none)
        else
          match List.lookup c s₁.attrs with
          | some du => ({ s₁ with attrs := setAssoc s₁.attrs c (du.1, u) }, none)
          | none => (s₁, some (.keyError c))

/-- Numeric value of a decimal digit character (proof helper). -/
def charVal (c : Char) : ℕ := c.toNat - 48

/-- Reads a decimal digit string back into the number it renders (proof helper). -/
def unrender (l : List Char) : ℕ := l.foldl (fun acc c => 10 * acc + charVal c) 0

/-- Example sweep data: two traces, with attrs (used by concrete theorems). -/
def trEx : List (String × List ℚ) := [("wl", [1, 2, 3]), ("p1", [4, 5, 6])]

/-- Attrs for `trEx`: a (description, unit) pair per trace. -/
def atEx : List (String × String × String) :=
  [("wl", ("Wavelength", "nm")), ("p1", ("Power", "W"))]

/-- The sweep that `Sweep.init trEx (some atEx)` constructs. -/
def sweepEx : Sweep :=
  ⟨trEx, atEx, [("x", "wl"), ("y", "p1"), ("y0", "p1")], 3,
    [("wl", (1, 3)), ("p1", (4, 6))]⟩

/-- Example sweep data: two traces, no attrs. -/
def trEx2 : List (String × List ℚ) := [("a", [1, 2]), ("b", [3, 4])]

/-- The sweep that `Sweep.init trEx2 none` constructs. -/
def sweepNA : Sweep :=
  ⟨trEx2, [], [("x", "a"), ("y", "b"), ("y0", "b")], 2,
    [("a", (1, 2)), ("b", (3, 4))]⟩

/-- Example sweep data: three traces, no attrs (exercises the y1 alias). -/
def trEx3 : List (String × List ℚ) := [("wl", [1, 2]), ("p1", [3, 4]), ("p2", [5, 6])]

/-- The sweep that `Sweep.init trEx3 none` constructs. -/
def sweepEx3 : Sweep :=
  ⟨trEx3, [], [("x", "wl"), ("y", "p1"), ("y0", "p1"), ("y1", "p2")], 2,
    [("wl", (1, 2)), ("p1", (3, 4)), ("p2", (5, 6))]⟩

/-! Helper lemmas about the decimal rendering of alias indices. -/

theorem charVal_digitChar (d : ℕ) (h : d < 10) : charVal (digitChar d) = d := by
  interval_cases d <;> rfl

theorem unrender_append (l : List Char) (c : Char) :
    unrender (l ++ [c]) = 10 * unrender l + charVal c := by
  simp [unrender, List.foldl_append]

theorem unrender_natStrAux (fuel : ℕ) : ∀ n, n ≤ fuel → unrender (natStrAux fuel n) = n := by
  induction fuel with
  | zero => intro n h; interval_cases n; rfl
  | succ g ih =>
    intro n h
    by_cases hn : n = 0
    · subst hn; rfl
    · have hd : n / 10 ≤ g := by
        have := Nat.div_lt_self (Nat.pos_of_ne_zero hn) (show 1 < 10 by norm_num)
        omega
      simp only [natStrAux, hn, if_false]
      rw [unrender_append, ih (n / 10) hd,
        charVal_digitChar (n % 10) (Nat.mod_lt n (show 0 < 10 by norm_num))]
      omega

theorem natStrAux_ne_nil (fuel n : ℕ) (hn : n ≠ 0) (h : n ≤ fuel) : natStrAux fuel n ≠ [] := by
  cases fuel with
  | zero => omega
  | succ g => simp [natStrAux, hn]

theorem unrender_natStr_data (n : ℕ) : unrender (natStr n).data = n := by
  by_cases hn : n = 0
  · subst hn; rfl
  · simp only [natStr, hn, if_false]
    exact unrender_natStrAux n n le_rfl

theorem natStr_injective : Function.Injective natStr := by
  intro a b hab
  have h := congrArg (fun s => unrender s.data) hab
  simpa [unrender_natStr_data] using h

theorem natStr_data_ne_nil (n : ℕ) : (natStr n).data ≠ [] := by
  by_cases hn : n = 0
  · subst hn; simp [natStr]
  · simp only [natStr, hn, if_false]
    exact natStrAux_ne_nil n n hn le_rfl

theorem yalias_ne_x (i : ℕ) : ("y" ++ natStr i) ≠ "x" := by
  intro h
  have hd := congrArg String.data h
  rw [String.data_append] at hd
  have h1 : "y".data = ['y'] := rfl
  have h2 : "x".data = ['x'] := rfl
  rw [h1, h2] at hd
  simp at hd

theorem yalias_ne_y (i : ℕ) : ("y" ++ natStr i) ≠ "y" := by
  intro h
  have hd := congrArg String.data h
  rw [String.data_append] at hd
  have h1 : "y".data = ['y'] := rfl
  rw [h1] at hd
  simp at hd
  exact natStr_data_ne_nil i hd

theorem yalias_inj (i j : ℕ) (h : ("y" ++ natStr i) = ("y" ++ natStr j)) : i = j := by
  have hd := congrArg String.data h
  rw [String.data_append, String.data_append] at hd
  have h1 : "y".data = ['y'] := rfl
  rw [h1] at hd
  simp at hd
  exact natStr_injective (String.ext_iff.mpr hd)

theorem lookup_yalias_enumFrom (l : List String) (o i : ℕ) (k : String)
    (h : l.get? i = some k) :
    List.lookup ("y" ++ natStr (o + i))
      ((List.enumFrom o l).map (fun p => ("y" ++ natStr p.1, p.2))) = some k := by
  induction l generalizing o i with
  | nil => simp at h
  | cons x xs ih =>
    cases i with
    | zero =>
      simp only [List.get?] at h
      cases h
      simp [List.enumFrom, List.lookup]
    | succ j =>
      have hne : ("y" ++ natStr (o + (j + 1))) ≠ ("y" ++ natStr o) := by
        intro he; have := yalias_inj _ _ he; omega
      have hbeq : (("y" ++ natStr (o + (j + 1))) == ("y" ++ natStr o)) = false :=
        beq_eq_false_iff_ne.mpr hne
      simp only [List.enumFrom, List.map_cons, List.lookup, hbeq]
      have harith : o + (j + 1) = (o + 1) + j := by omega
      rw [harith]
      exact ih (o + 1) j (by simpa using h)

/-! Helper lemmas about association-list lookup and Python dict assignment. -/

theorem lookup_cons {α : Type} (k : String) (p : String × α) (l : List (String × α)) :
    List.lookup k (p :: l) = if k == p.1 then some p.2 else List.lookup k l := by
  rcases p with ⟨a, b⟩
  simp only [List.lookup]
  cases k == a <;> simp

theorem lookup_map_overwrite {α : Type} (l : List (String × α)) (k : String) (v : α)
    (hc : (keys l).contains k = true) :
    List.lookup k (l.map (fun p => if p.1 = k then (k, v) else p)) = some v := by
  induction l with
  | nil => simp [keys] at hc
  | cons p rest ih =>
    rw [List.map_cons, lookup_cons]
    by_cases hp : p.1 = k
    · rw [if_pos hp]
      simp [hp]
    · rw [if_neg hp]
      have hbeq : (k == p.1) = false := beq_eq_false_iff_ne.mpr (fun he => hp he.symm)
      have hc' : (keys rest).contains k = true := by
        simp only [keys, List.map_cons, List.contains_cons, beq_iff_eq, Bool.or_eq_true] at hc
        rcases hc with h | h
        · exact absurd h.symm hp
        · simpa [keys] using h
      simp only [hbeq, Bool.false_eq_true, if_false]
      exact ih hc'

theorem lookup_append_single {α : Type} (l : List (String × α)) (k : String) (v : α)
    (hc : (keys l).contains k = false) :
    List.lookup k (l ++ [(k, v)]) = some v := by
  induction l with
  | nil => simp [List.lookup]
  | cons p rest ih =>
    simp only [keys, List.map_cons, List.contains_cons, beq_iff_eq, Bool.or_eq_false_iff] at hc
    rw [List.cons_append, lookup_cons]
    have hbeq : (k == p.1) = false := hc.1
    simp only [hbeq, Bool.false_eq_true, if_false]
    exact ih (by simpa [keys] using hc.2)

theorem lookup_setAssoc_self {α : Type} (l : List (String × α)) (k : String) (v : α) :
    List.lookup k (setAssoc l k v) = some v := by
  unfold setAssoc
  by_cases hc : (keys l).contains k = true
  · rw [if_pos hc]
    exact lookup_map_overwrite l k v hc
  · rw [if_neg hc]
    exact lookup_append_single l k v (by simpa using hc)

theorem lookup_setAssoc_ne {α : Type} (l : List (String × α)) (k k' : String) (v : α)
    (hne : k' ≠ k) : List.lookup k' (setAssoc l k v) = List.lookup k' l := by
  have h1 : (k' == k) = false := beq_eq_false_iff_ne.mpr hne
  unfold setAssoc
  by_cases hc : (keys l).contains k = true
  · rw [if_pos hc]
    clear hc
    induction l with
    | nil => simp
    | cons p rest ih =>
      rw [List.map_cons, lookup_cons, lookup_cons]
      by_cases hp : p.1 = k
      · have h2 : (k' == p.1) = false := by rw [hp]; exact h1
        simp only [if_pos hp, h2, h1, Bool.false_eq_true, if_false]
        exact ih
      · rw [if_neg hp]
        cases hb : (k' == p.1) with
        | true => simp [hb]
        | false => simp only [hb, Bool.false_eq_true, if_false]; exact ih
  · rw [if_neg hc]
    clear hc
    induction l with
    | nil => simp [List.lookup, h1]
    | cons p rest ih =>
      rw [List.cons_append, lookup_cons, lookup_cons]
      cases hb : (k' == p.1) with
      | true => simp [hb]
      | false => simp only [hb, Bool.false_eq_true, if_false]; exact ih

theorem isEmpty_false_of_ne_nil {α : Type} {l : List α} (h : l ≠ []) : l.isEmpty = false := by
  cases l with
  | nil => exact absurd rfl h
  | cons a t => rfl

/-! Helper lemmas describing each control path of `change_unit`. -/

theorem change_unit_not_truthy (s : Sweep) (col : String) (coeff : ℚ)
    (unit desc : Option String) (c : String) (v : List ℚ)
    (hres : s.get_trace_col col = .ok c) (hv : List.lookup c s.traces = some v)
    (hunit : truthy unit = false) (ha : s.attrs ≠ []) :
    s.change_unit col coeff unit desc =
      ({ s with traces := setAssoc s.traces c (v.map (fun x => coeff * x)) },
       some (.valueError missingUnitMsg)) := by
  simp only [Sweep.change_unit, hres, hv, isEmpty_false_of_ne_nil ha, hunit]
  simp

theorem change_unit_no_attrs (s : Sweep) (col : String) (coeff : ℚ)
    (unit desc : Option String) (c : String) (v : List ℚ)
    (hres : s.get_trace_col col = .ok c) (hv : List.lookup c s.traces = some v)
    (ha : s.attrs = []) :
    s.change_unit col coeff unit desc =
      ({ s with traces := setAssoc s.traces c (v.map (fun x => coeff * x)) }, none) := by
  simp only [Sweep.change_unit, hres, hv, ha]
  simp

theorem change_unit_with_desc (s : Sweep) (col : String) (coeff : ℚ) (u : String)
    (desc : Option String) (c : String) (v : List ℚ)
    (hres : s.get_trace_col col = .ok c) (hv : List.lookup c s.traces = some v)
    (hu : truthy (some u) = true) (hd : truthy desc = true) (ha : s.attrs ≠ []) :
    s.change_unit col coeff (some u) desc =
      ({ s with traces := setAssoc s.traces c (v.map (fun x => coeff * x)),
                attrs := setAssoc s.attrs c (desc.getD "", u) }, none) := by
  simp only [Sweep.change_unit, hres, hv, isEmpty_false_of_ne_nil ha, hu, hd]
  simp

theorem change_unit_no_desc (s : Sweep) (col : String) (coeff : ℚ) (u : String)
    (desc : Option String) (c : String) (v : List ℚ) (du : String × String)
    (hres : s.get_trace_col col = .ok c) (hv : List.lookup c s.traces = some v)
    (hu : truthy (some u) = true) (hd : truthy desc = false)
    (hdu : List.lookup c s.attrs = some du) (ha : s.attrs ≠ []) :
    s.change_unit col coeff (some u) desc =
      ({ s with traces := setAssoc s.traces c (v.map (fun x => coeff * x)),
                attrs := setAssoc s.attrs c (du.1, u) }, none) := by
  simp only [Sweep.change_unit, hres, hv, isEmpty_false_of_ne_nil ha, hu, hd, hdu]
  simp

/-! Helper lemmas inverting a successful construction. -/

theorem init_ok_initCore (traces : List (String × List ℚ))
    (attrs : Option (List (String × String × String))) (s : Sweep)
    (h : Sweep.init traces attrs = .ok s) : ∃ a, initCore traces a = .ok s := by
  unfold Sweep.init at h
  split at h
  · exact absurd h (by simp)
  · cases attrs with
    | none => exact ⟨[], h⟩
    | some a =>
      simp only at h
      by_cases he : a.isEmpty = true
      · rw [if_pos he] at h
        exact ⟨[], h⟩
      · rw [if_neg he] at h
        by_cases hk : sameKeys a traces = true
        · rw [if_pos hk] at h
          exact ⟨a, h⟩
        · rw [if_neg hk] at h
          exact absurd h (by simp)

theorem initCore_ok_inv (traces : List (String × List ℚ))
    (a : List (String × String × String)) (s : Sweep)
    (h : initCore traces a = .ok s) :
    s.traces = traces ∧ s.attrs = a ∧
    ∃ k0 k1 krest, keys traces = k0 :: k1 :: krest ∧
      s.aliases = ("x", k0) :: ("y", k1) ::
        (List.enumFrom 0 (k1 :: krest)).map (fun p => ("y" ++ natStr p.1, p.2)) := by
  unfold initCore at h
  split at h
  case _ k0 k1 krest heq =>
    split at h
    case _ xv hxv =>
      split at h
      case _ rs hrs =>
        cases h
        refine ⟨rfl, rfl, k0, k1, krest, heq, ?_⟩
        simp only [heq, List.drop_succ_cons, List.drop_zero, List.enum]
        rfl
      case _ e he => exact absurd h (by simp)
    case _ hxv => exact absurd h (by simp)
  case _ hk => exact absurd h (by simp)

theorem lookup_aliases_y (k0 k1 : String) (krest : List String) (i : ℕ) (ki : String)
    (hget : (k1 :: krest).get? i = some ki) :
    List.lookup ("y" ++ natStr i)
      (("x", k0) :: ("y", k1) ::
        (List.enumFrom 0 (k1 :: krest)).map (fun p => ("y" ++ natStr p.1, p.2)))
      = some ki := by
  rw [lookup_cons, lookup_cons]
  have h1 : (("y" ++ natStr i) == "x") = false := beq_eq_false_iff_ne.mpr (yalias_ne_x i)
  have h2 : (("y" ++ natStr i) == "y") = false := beq_eq_false_iff_ne.mpr (yalias_ne_y i)
  simp only [h1, h2, Bool.false_eq_true, if_false]
  have h3 := lookup_yalias_enumFrom (k1 :: krest) 0 i ki hget
  simpa using h3

/-! Helper lemmas about the constructor's ranges-and-length loop. -/

theorem buildRanges_ok (n : ℕ) (l : List (String × List ℚ))
    (hall : ∀ p ∈ l, p.2.length = n) (hne : ∀ p ∈ l, p.2 ≠ []) :
    ∃ rs, buildRanges n l = .ok rs := by
  induction l with
  | nil => exact ⟨[], rfl⟩
  | cons p rest ih =>
    rcases p with ⟨k, v⟩
    obtain ⟨x, xs, hv⟩ : ∃ x xs, v = x :: xs := by
      cases hv : v with
      | nil => exact absurd hv (hne (k, v) (by simp))
      | cons x xs => exact ⟨x, xs, rfl⟩
    subst hv
    obtain ⟨rs, hrs⟩ := ih (fun q hq => hall q (by simp [hq])) (fun q hq => hne q (by simp [hq]))
    refine ⟨(k, (xs.foldl min x, xs.foldl max x)) :: rs, ?_⟩
    have hlen : (x :: xs).length = n := hall (k, x :: xs) (by simp)
    simp only [buildRanges, listMin, listMax]
    rw [if_neg (by simp [hlen]), hrs]

theorem buildRanges_mismatch (n : ℕ) (l : List (String × List ℚ))
    (hne : ∀ p ∈ l, p.2 ≠ []) (hex : ∃ p ∈ l, p.2.length ≠ n) :
    ∃ k v, (k, v) ∈ l ∧ v.length ≠ n ∧
      buildRanges n l = .error (.valueError (lengthMismatchMsg k)) := by
  induction l with
  | nil => simp at hex
  | cons p rest ih =>
    rcases p with ⟨k, v⟩
    obtain ⟨x, xs, hv⟩ : ∃ x xs, v = x :: xs := by
      cases hv : v with
      | nil => exact absurd hv (hne (k, v) (by simp))
      | cons x xs => exact ⟨x, xs, rfl⟩
    subst hv
    by_cases hlen : (x :: xs).length ≠ n
    · refine ⟨k, x :: xs, by simp, hlen, ?_⟩
      simp only [buildRanges, listMin, listMax]
      rw [if_pos hlen]
    · have hex' : ∃ p ∈ rest, p.2.length ≠ n := by
        rcases hex with ⟨q, hq, hql⟩
        rcases List.mem_cons.mp hq with h | h
        · subst h; exact absurd hql hlen
        · exact ⟨q, h, hql⟩
      obtain ⟨k', v', hmem, hlen', herr⟩ :=
        ih (fun q hq => hne q (by simp [hq])) hex'
      refine ⟨k', v', by simp [hmem], hlen', ?_⟩
      simp only [buildRanges, listMin, listMax]
      rw [if_neg hlen, herr]

/-! The claims. -/

/-- C1: the claim says `get_axis_labels` renders each trace's attrs entry as
`"description (unit)"`. The code instead iterates the TRACES dict and
formats the first two numeric samples of the trace, ignoring attrs: on the
attrs-bearing `sweepEx` the labels are `"1 (2)"` and `"4 (5)"`, not
`"Wavelength (nm)"` and `"Power (W)"`. -/
theorem C1_labels_from_trace_values :
    Sweep.init trEx (some atEx) = .ok sweepEx ∧
    sweepEx.get_axis_labels false = .ok [("wl", "1 (2)"), ("p1", "4 (5)")] ∧
    fmtLabel "Wavelength" "nm" = "Wavelength (nm)" ∧
    ((Except.ok [("wl", "1 (2)"), ("p1", "4 (5)")] : Except PyError (List (String × String))) ≠
      .ok [("wl", "Wavelength (nm)"), ("p1", "Power (W)")]) := by decide

/-- C3: the claim says `get_axis_labels` fails whenever attrs is empty. The
code never touches attrs there, so on the attrs-less `sweepNA` the call
SUCCEEDS and returns labels built from the trace samples. -/
theorem C3_no_failure_on_empty_attrs :
    Sweep.init trEx2 none = .ok sweepNA ∧ sweepNA.attrs = [] ∧
    sweepNA.get_axis_labels false = .ok [("a", "1 (2)"), ("b", "3 (4)")] := by decide

/-- C2 counterexample: on `sweepEx`, `change_unit "p1" 2` without a unit
raises, yet the p1 trace afterwards holds `[8, 10, 12]`, not its prior
`[4, 5, 6]` — the claimed no-partial-mutation property is false. -/
theorem C2_counterexample :
    (sweepEx.change_unit "p1" 2 none none).2.isSome = true ∧
    (sweepEx.change_unit "p1" 2 none none).1.getitem "p1" = .ok [8, 10, 12] ∧
    sweepEx.getitem "p1" = .ok [4, 5, 6] ∧
    ((Except.ok [8, 10, 12] : Except PyError (List ℚ)) ≠ .ok [4, 5, 6]) := by
  have hmap : ([4, 5, 6] : List ℚ).map (fun x => 2 * x) = [8, 10, 12] := by norm_num
  refine ⟨rfl, ?_, rfl, by simp⟩
  calc (sweepEx.change_unit "p1" 2 none none).1.getitem "p1"
      = .ok (([4, 5, 6] : List ℚ).map (fun x => 2 * x)) := rfl
    _ = .ok [8, 10, 12] := by rw [hmap]

/-- C2 amended: a missing-unit `rescale` on an attrs-bearing sweep raises
the missing-unit error, but the resolved trace has ALREADY been multiplied
in place (the multiply precedes the validation, so partial mutation is
observable); every other trace and the attrs are unchanged. -/
theorem C2_amended_partial_mutation (s : Sweep) (col : String) (coeff : ℚ)
    (desc : Option String) (c : String) (v : List ℚ)
    (hres : s.get_trace_col col = .ok c) (hv : List.lookup c s.traces = some v)
    (ha : s.attrs ≠ []) :
    (s.change_unit col coeff none desc).2 = some (.valueError missingUnitMsg) ∧
    List.lookup c (s.change_unit col coeff none desc).1.traces
      = some (v.map (fun x => coeff * x)) ∧
    (∀ k, k ≠ c → List.lookup k (s.change_unit col coeff none desc).1.traces
      = List.lookup k s.traces) ∧
    (s.change_unit col coeff none desc).1.attrs = s.attrs := by
  rw [change_unit_not_truthy s col coeff none desc c v hres hv rfl ha]
  refine ⟨rfl, lookup_setAssoc_self _ _ _, ?_, rfl⟩
  intro k hk
  exact lookup_setAssoc_ne _ _ _ _ hk

/-- C2 witness: the amended behaviour on the concrete `sweepEx`. -/
theorem C2_witness :
    (sweepEx.change_unit "p1" 2 none none).2 = some (.valueError missingUnitMsg) ∧
    List.lookup "p1" (sweepEx.change_unit "p1" 2 none none).1.traces
      = some (([4, 5, 6] : List ℚ).map (fun x => 2 * x)) ∧
    List.lookup "wl" (sweepEx.change_unit "p1" 2 none none).1.traces
      = List.lookup "wl" sweepEx.traces ∧
    (sweepEx.change_unit "p1" 2 none none).1.attrs = sweepEx.attrs := by
  have h := C2_amended_partial_mutation sweepEx "p1" 2 none "p1" [4, 5, 6]
    (by decide) (by decide) (by decide)
  exact ⟨h.1, h.2.1, h.2.2.1 "wl" (by decide), h.2.2.2⟩

/-- C4 counterexample: the uniform length-0 case the claim says must
succeed instead fails, because the constructor computes `np.min` of the
empty first trace before any length comparison. -/
theorem C4_counterexample :
    Sweep.init [("a", ([] : List ℚ)), ("b", [])] none =
      .error (.valueError "zero-size array to reduction operation minimum which has no identity") ∧
    (∀ p ∈ [("a", ([] : List ℚ)), ("b", [])], p.2.length = 0) := by decide

/-- C4 amended: with at least two traces and every trace non-empty, a
length mismatch against the first trace fails with the `ValueError` naming
an offending trace, and uniform lengths succeed with `len` equal to the
common length; an empty trace instead fails at the range computation. -/
theorem C4_amended_uniform_length (traces : List (String × List ℚ))
    (h2 : 2 ≤ traces.length) (hne : ∀ p ∈ traces, p.2 ≠ []) :
    ((∀ p ∈ traces, p.2.length = traces.headI.2.length) →
      (Sweep.init traces none).isOk = true ∧
      ∀ s, Sweep.init traces none = .ok s → s.len = traces.headI.2.length) ∧
    ((∃ p ∈ traces, p.2.length ≠ traces.headI.2.length) →
      ∃ k v, (k, v) ∈ traces ∧ v.length ≠ traces.headI.2.length ∧
        Sweep.init traces none = .error (.valueError (lengthMismatchMsg k))) := by
  obtain ⟨p0, q0, rest, htr⟩ : ∃ p q r, traces = p :: q :: r := by
    cases traces with
    | nil => simp at h2
    | cons p t =>
      cases t with
      | nil => simp at h2
      | cons q r => exact ⟨p, q, r, rfl⟩
  rcases p0 with ⟨k0, v0⟩
  rcases q0 with ⟨k1, v1⟩
  subst htr
  have hinit : Sweep.init ((k0, v0) :: (k1, v1) :: rest) none
      = initCore ((k0, v0) :: (k1, v1) :: rest) [] := by
    unfold Sweep.init
    rw [if_neg (by simp)]
  have hl : List.lookup k0 ((k0, v0) :: (k1, v1) :: rest) = some v0 := by
    rw [lookup_cons]
    simp
  constructor
  · intro hall
    obtain ⟨rs, hrs⟩ := buildRanges_ok v0.length _
      (fun p hp => by simpa using hall p hp) hne
    rw [hinit]
    unfold initCore
    simp only [keys, List.map_cons, hl, hrs]
    exact ⟨rfl, fun s hs => by cases hs; rfl⟩
  · intro hex
    obtain ⟨k, v, hmem, hlen, herr⟩ := buildRanges_mismatch v0.length _ hne
      (by simpa using hex)
    refine ⟨k, v, hmem, by simpa using hlen, ?_⟩
    rw [hinit]
    unfold initCore
    simp only [keys, List.map_cons, hl, herr]

/-- C4 witness: the uniform (length 2) case on concrete data. -/
theorem C4_witness : (Sweep.init trEx2 none).isOk = true ∧ sweepNA.len = 2 := by
  have h := (C4_amended_uniform_length trEx2 (by decide) (by decide)).1 (by decide)
  exact ⟨h.1, h.2 sweepNA (by decide)⟩

/-- C5 counterexample: supplying attrs as an EMPTY mapping (whose key set
differs from the two trace keys, as `sameKeys` confirms) does NOT fail:
`if attrs:` treats the empty dict as absent. -/
theorem C5_counterexample :
    (Sweep.init trEx2 (some [])).isOk = true ∧
    sameKeys ([] : List (String × String × String)) trEx2 = false := by decide

/-- C5 amended: a supplied NON-EMPTY attrs whose key set differs from the
trace keys fails with the metadata-mismatch `ValueError`; a supplied EMPTY
attrs dict is falsy and is treated exactly like passing no attrs at all. -/
theorem C5_amended_attrs_key_parity (traces : List (String × List ℚ))
    (a : List (String × String × String)) (h2 : 2 ≤ traces.length)
    (hne : a ≠ []) (hk : sameKeys a traces = false) :
    Sweep.init traces (some a)
      = .error (.valueError "The keys of 'traces' and 'attrs' must match.") ∧
    Sweep.init traces (some []) = Sweep.init traces none := by
  constructor
  · unfold Sweep.init
    rw [if_neg (by omega)]
    simp only [isEmpty_false_of_ne_nil hne, hk]
    simp
  · unfold Sweep.init
    rfl

/-- C5 witness: a one-key attrs dict against two-key traces fails, and the
empty attrs dict behaves like no attrs, on concrete data. -/
theorem C5_witness :
    Sweep.init trEx2 (some [("zz", ("d", "u"))])
      = .error (.valueError "The keys of 'traces' and 'attrs' must match.") ∧
    Sweep.init trEx2 (some []) = Sweep.init trEx2 none :=
  C5_amended_attrs_key_parity trEx2 [("zz", ("d", "u"))] (by decide) (by decide) (by decide)

/-- C6: a successful `rescale` with a (truthy) unit multiplies every element
of the resolved trace by the coefficient, keeps its length, leaves every
other trace alone, and updates the attrs entry to `(desc, unit)` when a
description is given and `(old description, unit)` otherwise; without attrs
the metadata is untouched. -/
theorem C6_rescale_effect (s : Sweep) (col : String) (coeff : ℚ) (u : String)
    (desc : Option String) (c : String) (v : List ℚ)
    (hres : s.get_trace_col col = .ok c)
    (hv : List.lookup c s.traces = some v)
    (hu : truthy (some u) = true)
    (hattr : s.attrs ≠ [] → truthy desc = false → ∃ du, List.lookup c s.attrs = some du) :
    (s.change_unit col coeff (some u) desc).2 = none ∧
    List.lookup c (s.change_unit col coeff (some u) desc).1.traces
      = some (v.map (fun x => coeff * x)) ∧
    (v.map (fun x => coeff * x)).length = v.length ∧
    (∀ k, k ≠ c → List.lookup k (s.change_unit col coeff (some u) desc).1.traces
      = List.lookup k s.traces) ∧
    (s.attrs = [] → (s.change_unit col coeff (some u) desc).1.attrs = s.attrs) ∧
    (s.attrs ≠ [] → ∀ d, desc = some d → truthy desc = true →
      List.lookup c (s.change_unit col coeff (some u) desc).1.attrs = some (d, u)) ∧
    (s.attrs ≠ [] → truthy desc = false → ∀ du, List.lookup c s.attrs = some du →
      List.lookup c (s.change_unit col coeff (some u) desc).1.attrs = some (du.1, u)) := by
  by_cases ha : s.attrs = []
  · rw [change_unit_no_attrs s col coeff (some u) desc c v hres hv ha]
    refine ⟨rfl, lookup_setAssoc_self _ _ _, List.length_map _ _, ?_, fun _ => rfl,
      fun h => absurd ha h, fun h => absurd ha h⟩
    intro k hk
    exact lookup_setAssoc_ne _ _ _ _ hk
  · by_cases hd : truthy desc = true
    · rw [change_unit_with_desc s col coeff u desc c v hres hv hu hd ha]
      refine ⟨rfl, lookup_setAssoc_self _ _ _, List.length_map _ _, ?_,
        fun h => absurd h ha, ?_, ?_⟩
      · intro k hk
        exact lookup_setAssoc_ne _ _ _ _ hk
      · intro _ d hdesc _
        rw [hdesc]
        simpa [hdesc] using lookup_setAssoc_self s.attrs c (d, u)
      · intro _ hfalse
        exact absurd hd (by simp [hfalse])
    · have hd' : truthy desc = false := by
        cases h : truthy desc with
        | true => exact absurd h hd
        | false => rfl
      obtain ⟨du, hdu⟩ := hattr ha hd'
      rw [change_unit_no_desc s col coeff u desc c v du hres hv hu hd' hdu ha]
      refine ⟨rfl, lookup_setAssoc_self _ _ _, List.length_map _ _, ?_,
        fun h => absurd h ha, ?_, ?_⟩
      · intro k hk
        exact lookup_setAssoc_ne _ _ _ _ hk
      · intro _ d _ htrue
        exact absurd htrue hd
      · intro _ _ du' hdu'
        rw [hdu'] at hdu
        cases hdu
        exact lookup_setAssoc_self _ _ _

/-- C6 witness: rescaling `"p1"` on `sweepEx` by 1000 to `"mW"` with a new
description succeeds, scales the trace, keeps the other trace, and rewrites
the attrs entry. -/
theorem C6_witness :
    (sweepEx.change_unit "p1" 1000 (some "mW") (some "Optical Power")).2 = none ∧
    List.lookup "p1" (sweepEx.change_unit "p1" 1000 (some "mW") (some "Optical Power")).1.traces
      = some (([4, 5, 6] : List ℚ).map (fun x => 1000 * x)) ∧
    (([4, 5, 6] : List ℚ).map (fun x => 1000 * x)).length = 3 ∧
    List.lookup "wl" (sweepEx.change_unit "p1" 1000 (some "mW") (some "Optical Power")).1.traces
      = List.lookup "wl" sweepEx.traces ∧
    List.lookup "p1" (sweepEx.change_unit "p1" 1000 (some "mW") (some "Optical Power")).1.attrs
      = some ("Optical Power", "mW") := by
  have h := C6_rescale_effect sweepEx "p1" 1000 "mW" (some "Optical Power") "p1" [4, 5, 6]
    (by decide) (by decide) (by decide) (fun _ hd => absurd hd (by decide))
  exact ⟨h.1, h.2.1, h.2.2.1, h.2.2.2.1 "wl" (by decide),
    h.2.2.2.2.2.1 (by decide) "Optical Power" rfl rfl⟩

/-- C7: name resolution consults the alias map first, then the canonical
trace names, and otherwise fails with a `KeyError` naming the key. -/
theorem C7_resolution_order (s : Sweep) (col : String) :
    (∀ t, List.lookup col s.aliases = some t → s.get_trace_col col = .ok t) ∧
    (List.lookup col s.aliases = none → (keys s.traces).contains col = true →
      s.get_trace_col col = .ok col) ∧
    (List.lookup col s.aliases = none → (keys s.traces).contains col = false →
      s.get_trace_col col = .error (.keyError (noTraceMsg col))) := by
  refine ⟨?_, ?_, ?_⟩
  · intro t h
    simp [Sweep.get_trace_col, h]
  · intro h1 h2
    simp only [Sweep.get_trace_col, h1]
    rw [if_pos h2]
  · intro h1 h2
    simp only [Sweep.get_trace_col, h1]
    rw [if_neg (by rw [h2]; simp)]

/-- C7 witness: an alias hit, a canonical-name hit and a lookup failure on
the concrete `sweepEx`. -/
theorem C7_witness :
    sweepEx.get_trace_col "x" = .ok "wl" ∧
    sweepEx.get_trace_col "p1" = .ok "p1" ∧
    sweepEx.get_trace_col "zz" = .error (.keyError (noTraceMsg "zz")) := by
  have hx := C7_resolution_order sweepEx "x"
  have hp := C7_resolution_order sweepEx "p1"
  have hz := C7_resolution_order sweepEx "zz"
  exact ⟨hx.1 "wl" (by decide), hp.2.1 (by decide) (by decide), hz.2.2 (by decide) (by decide)⟩

/-- C8: on every constructed sweep, `x` resolves to the first trace name,
`y` and `y0` both to the second, and `y` followed by the decimal rendering
of `i` to the (i+1)-th trace name, for every i over the non-x traces. -/
theorem C8_alias_positions (traces : List (String × List ℚ))
    (attrs : Option (List (String × String × String))) (s : Sweep)
    (h : Sweep.init traces attrs = .ok s) :
    (∀ k0, (keys traces).get? 0 = some k0 → s.get_trace_col "x" = .ok k0) ∧
    (∀ k1, (keys traces).get? 1 = some k1 →
      s.get_trace_col "y" = .ok k1 ∧ s.get_trace_col "y0" = .ok k1) ∧
    (∀ i ki, (keys traces).get? (i + 1) = some ki →
      s.get_trace_col ("y" ++ natStr i) = .ok ki) := by
  obtain ⟨a, hc⟩ := init_ok_initCore traces attrs s h
  obtain ⟨htr, hat, k0, k1, krest, hkeys, hal⟩ := initCore_ok_inv traces a s hc
  refine ⟨?_, ?_, ?_⟩
  · intro k0' h0
    rw [hkeys] at h0
    simp only [List.get?] at h0
    cases h0
    simp [Sweep.get_trace_col, hal, lookup_cons]
  · intro k1' h1
    rw [hkeys] at h1
    simp only [List.get?] at h1
    cases h1
    constructor
    · simp [Sweep.get_trace_col, hal, lookup_cons]
    · have hy0 : ("y0" : String) = "y" ++ natStr 0 := by decide
      rw [hy0]
      have hlk := lookup_aliases_y k0 k1 krest 0 k1 rfl
      unfold Sweep.get_trace_col
      rw [hal, hlk]
  · intro i ki hi
    rw [hkeys] at hi
    simp only [List.get?] at hi
    have hlk := lookup_aliases_y k0 k1 krest i ki hi
    unfold Sweep.get_trace_col
    rw [hal, hlk]

/-- C8 witness: the alias positions on the three-trace `sweepEx3`, including
the rendered `"y1"` alias. -/
theorem C8_witness :
    sweepEx3.get_trace_col "x" = .ok "wl" ∧
    sweepEx3.get_trace_col "y" = .ok "p1" ∧
    sweepEx3.get_trace_col "y0" = .ok "p1" ∧
    sweepEx3.get_trace_col "y1" = .ok "p2" := by
  have h := C8_alias_positions trEx3 none sweepEx3 (by decide)
  refine ⟨h.1 "wl" (by decide), (h.2.1 "p1" (by decide)).1, (h.2.1 "p1" (by decide)).2, ?_⟩
  have h4 := h.2.2 1 "p2" (by decide)
  have hy1 : ("y" ++ natStr 1) = "y1" := by decide
  rwa [hy1] at h4

/-- C9: on a sweep with non-empty attrs, for every resolvable name and every
coefficient, `change_unit` without a `unit` argument reports the
missing-unit `ValueError`. -/
theorem C9_missing_unit_enforced (s : Sweep) (col : String) (coeff : ℚ)
    (desc : Option String) (c : String) (v : List ℚ)
    (hres : s.get_trace_col col = .ok c) (hv : List.lookup c s.traces = some v)
    (ha : s.attrs ≠ []) :
    (s.change_unit col coeff none desc).2 = some (.valueError missingUnitMsg) := by
  rw [change_unit_not_truthy s col coeff none desc c v hres hv rfl ha]

/-- C9 witness: the missing-unit error on the concrete `sweepEx`. -/
theorem C9_witness :
    (sweepEx.change_unit "p1" 2 none none).2 = some (.valueError missingUnitMsg) :=
  C9_missing_unit_enforced sweepEx "p1" 2 none "p1" [4, 5, 6] (by decide) (by decide) (by decide)

/-- C10: passing `unit = ""` behaves exactly like omitting `unit`: the call
takes the same path (empty strings are falsy), raises the same missing-unit
error, and never writes the empty string into the attrs entry. -/
theorem C10_empty_unit_like_none (s : Sweep) (col : String) (coeff : ℚ)
    (desc : Option String) (c : String) (v : List ℚ)
    (hres : s.get_trace_col col = .ok c) (hv : List.lookup c s.traces = some v)
    (ha : s.attrs ≠ []) :
    s.change_unit col coeff (some "") desc = s.change_unit col coeff none desc ∧
    (s.change_unit col coeff (some "") desc).2 = some (.valueError missingUnitMsg) ∧
    (s.change_unit col coeff (some "") desc).1.attrs = s.attrs := by
  rw [change_unit_not_truthy s col coeff (some "") desc c v hres hv rfl ha,
    change_unit_not_truthy s col coeff none desc c v hres hv rfl ha]
  exact ⟨rfl, rfl, rfl⟩

/-- C10 witness: the empty-string unit on the concrete `sweepEx`. -/
theorem C10_witness :
    sweepEx.change_unit "wl" 3 (some "") none = sweepEx.change_unit "wl" 3 none none ∧
    (sweepEx.change_unit "wl" 3 (some "") none).2 = some (.valueError missingUnitMsg) ∧
    (sweepEx.change_unit "wl" 3 (some "") none).1.attrs = sweepEx.attrs :=
  C10_empty_unit_like_none sweepEx "wl" 3 none "wl" [1, 2, 3] (by decide) (by decide) (by decide)

end Autosweep
